import Mathlib

/-
Verification of the `erreur` structured-error library (Go).

The embedding models Go `error` interface values as the inductive type `Err`:
a value is either the library's own `String` leaf error, a `Structured` error,
or a foreign error (with or without an `Unwrap() error` method, i.e. the
`wrapper` capability).  A Go `error` variable, which may be nil, is an
`Option Err`.  Go panics (calling `Error()` on a nil error) are modelled by
`Option`-valued string functions.

zap fields (`zap.Field` / `zapcore.Field`) are modelled by `ZapField`: a key
together with a value that is a primitive, a nested object marshaler
(`zap.Object`, which in this library always wraps a `Structured`), the no-op
`zap.Skip()` field, or `zap.Error(e)` which holds the error itself and renders
its `Error()` text when added to an encoder.
-/

namespace Erreur

mutual

inductive Err : Type where
  | str : String → Err
  | structured : Structured → Err
  | foreignLeaf : String → Err
  | foreignWrap : String → Option Err → Err

inductive Structured : Type where
  | mk : Option Err → Option Err → List ZapField → Structured

inductive ZapField : Type where
  | mk : String → FieldValue → ZapField

inductive FieldValue : Type where
  | str : String → FieldValue
  | int : Int → FieldValue
  | bool : Bool → FieldValue
  | obj : Structured → FieldValue
  | skip : FieldValue
  | errVal : Err → FieldValue

end

/-- The `causer` field of the Go struct `Structured`. -/
def Structured.causer : Structured → Option Err
  | .mk c _ _ => c

/-- The `err` field of the Go struct `Structured`. -/
def Structured.err : Structured → Option Err
  | .mk _ e _ => e

/-- The `fields` field of the Go struct `Structured`. -/
def Structured.fields : Structured → List ZapField
  | .mk _ _ f => f

/-- The key of a zap field. -/
def ZapField.key : ZapField → String
  | .mk k _ => k

/-- The value of a zap field. -/
def ZapField.val : ZapField → FieldValue
  | .mk _ v => v

/-- Go `func Structure(cause error, fields ...zap.Field) error`:
returns nil if cause is nil, else a `Structured` with that cause and fields. -/
def Structure (cause : Option Err) (fields : List ZapField) : Option Err :=
  match cause with
  | none => none
  | some c => some (.structured (.mk (some c) none fields))

/-- Go `func New(message string, fields ...zap.Field) error`:
a fresh structured error whose `err` is `String(message)` and with no cause. -/
def New (message : String) (fields : List ZapField) : Err :=
  .structured (.mk none (some (.str message)) fields)

/-- Go `func Wrap(cause error, message string, fields ...zap.Field) error`:
returns nil if cause is nil, else a `Structured` with the cause, the message
wrapped as `String(message)`, and the fields. -/
def Wrap (cause : Option Err) (message : String) (fields : List ZapField) :
    Option Err :=
  match cause with
  | none => none
  | some c => some (.structured (.mk (some c) (some (.str message)) fields))

/-- Go `func (s Structured) Unwrap() error`: returns `s.causer`. -/
def Structured.unwrap (s : Structured) : Option Err :=
  s.causer

/-- Go `func (s Structured) Cause() error`: returns `s.causer`. -/
def Structured.cause (s : Structured) : Option Err :=
  s.causer

mutual

/-- Calling `.Error()` on a non-nil Go error value.  `String.Error` returns
the string itself; a foreign error returns its text; a `Structured` delegates
to `Structured.errString`.  The result is `none` when the call would panic. -/
def Err.errorString : Err → Option String
  | .str s => some s
  | .structured st => Structured.errString st
  | .foreignLeaf t => some t
  | .foreignWrap t _ => some t

/-- Go `func (s Structured) Error() string`: the message of `s.err` alone if
there is no cause, `err.Error() + ": " + causer.Error()` if both are present,
and `causer.Error()` if there is no own message.  With neither set the Go code
dereferences a nil interface and panics, modelled as `none`. -/
def Structured.errString : Structured → Option String
  | .mk causer err _ =>
    match err with
    | some e =>
      match causer with
      | none => Err.errorString e
      | some c =>
        match Err.errorString e, Err.errorString c with
        | some a, some b => some (a ++ ": " ++ b)
        | _, _ => none
    | none =>
      match causer with
      | some c => Err.errorString c
      | none => none

end

/-- Go `func (s Structured) errorOrCause() string`: `s.err.Error()` when
`s.err` is non-nil, else `s.causer.Error()` (panics, i.e. `none`, when both
are nil). -/
def Structured.errorOrCause (s : Structured) : Option String :=
  match s.err with
  | some e => Err.errorString e
  | none =>
    match s.causer with
    | some c => Err.errorString c
    | none => none

/-- The loop body of Go `AsStructured`: starting from `e`, break with the
value as soon as a type assertion to `Structured` succeeds, otherwise follow
the `wrapper` (Unwrap) capability; when neither applies (including nil) break
with the zero `Structured` value. -/
def asLoop : Option Err → Structured
  | some (.structured st) => st
  | some (.foreignWrap _ inner) => asLoop inner
  | _ => .mk none none []

/-- Go `func AsStructured(e error) (err Structured, ok bool)`: the loop above,
then `ok` is `s.causer != nil || s.err != nil` on the resulting value. -/
def AsStructured (e : Option Err) : Structured × Bool :=
  let s := asLoop e
  (s, s.causer.isSome || s.err.isSome)

/-- Go `func IsStructured(e error) bool`: the found flag of `AsStructured`. -/
def IsStructured (e : Option Err) : Bool :=
  (AsStructured e).2

/-- Go `func (s Structured) Fields() []zapcore.Field`: the own fields; when
the cause is non-nil and is itself a `Structured`, a `"cause"` object field is
appended, and the function returns inside that branch; the `AsStructured`
fallback below it is reached only when the cause is nil. -/
def Structured.fieldsFn (s : Structured) : List ZapField :=
  let fs := s.fields
  match s.unwrap with
  | some cause =>
    match cause with
    | .structured stre => fs ++ [ZapField.mk "cause" (.obj stre)]
    | _ => fs
  | none =>
    match AsStructured s.unwrap with
    | (stre, true) => fs ++ [ZapField.mk "cause" (.obj stre)]
    | (_, false) => fs

/-- Go `func Field(err error) zapcore.Field`: `zap.Skip()` for nil, a
`zap.Object("error", stre)` field when `AsStructured` finds a structured
error in the chain, else `zap.Error(err)` (key `"error"`, the error's text). -/
def Field (err : Option Err) : ZapField :=
  match err with
  | none => .mk "" .skip
  | some e =>
    match AsStructured (some e) with
    | (stre, true) => .mk "error" (.obj stre)
    | (_, false) => .mk "error" (.errVal e)

/-- A JSON value, as produced by the object encoder: the primitive kinds this
library writes, plus objects as ordered key/value lists. -/
inductive JSON : Type where
  | str : String → JSON
  | int : Int → JSON
  | bool : Bool → JSON
  | obj : List (String × JSON) → JSON

mutual

/-- Go `func (s Structured) MarshalLogObject(oe zapcore.ObjectEncoder) error`:
writes `"msg" = s.errorOrCause()`, then adds every field of `s.Fields()` in
order.  The result is the ordered key/value list the encoder receives; `none`
models a panic (an `Error()` call on a nil error somewhere in the tree).
`s.Fields()` is `s.fields` followed by the cause part, so the two are encoded
here by structural recursion and re-joined in `marshal_matches_fieldsFn`. -/
def Structured.marshal : Structured → Option (List (String × JSON))
  | .mk causer err fields =>
    match Structured.errorOrCause (.mk causer err fields),
        fieldsAdd fields, causeAdd causer with
    | some m, some own, some cp => some (("msg", JSON.str m) :: (own ++ cp))
    | _, _, _ => none

/-- Encoding of the cause part of `Fields()`: a `"cause"` object field when
the cause is directly a `Structured`, nothing otherwise. -/
def causeAdd : Option Err → Option (List (String × JSON))
  | some (.structured stre) =>
    match Structured.marshal stre with
    | some inner => some [("cause", JSON.obj inner)]
    | none => none
  | some (.str _) => some []
  | some (.foreignLeaf _) => some []
  | some (.foreignWrap _ _) => some []
  | none => some []

/-- Adding a list of zap fields to an object encoder, in order. -/
def fieldsAdd : List ZapField → Option (List (String × JSON))
  | [] => some []
  | f :: fs =>
    match ZapField.addTo f, fieldsAdd fs with
    | some a, some b => some (a ++ b)
    | _, _ => none

/-- `field.AddTo(oe)`: a primitive field writes its key and primitive value;
a `zap.Object` field writes a nested object by invoking `MarshalLogObject`
on the wrapped `Structured`; `zap.Skip()` writes nothing; `zap.Error(e)`
writes the key with the text `e.Error()` (panicking, `none`, on a nil-like
error). -/
def ZapField.addTo : ZapField → Option (List (String × JSON))
  | .mk k (.str t) => some [(k, JSON.str t)]
  | .mk k (.int n) => some [(k, JSON.int n)]
  | .mk k (.bool b) => some [(k, JSON.bool b)]
  | .mk k (.obj st) =>
    match Structured.marshal st with
    | some inner => some [(k, JSON.obj inner)]
    | none => none
  | .mk _ .skip => some []
  | .mk k (.errVal e) =>
    match Err.errorString e with
    | some t => some [(k, JSON.str t)]
    | none => none

end

/-- Modelled from the spec: JSON string quoting of the encoder (the encoder
itself is the external `go.uber.org/zap` JSON encoder, not part of this
repository).  Quotes and backslashes are escaped; the strings in this
development contain no other characters needing escapes. -/
def quoteJSON (s : String) : String :=
  "\"" ++ String.join (s.toList.map fun c =>
    if c = Char.ofNat 34 then "\\\""
    else if c = Char.ofNat 92 then "\\\\"
    else String.singleton c) ++ "\""

mutual

/-- Modelled from the spec: rendering a JSON value to text, `"msg"` and the
fields in order, bit-exact `\x7b"msg":"...","<field>":<value>,...\x7d` with
no other keys — the encoder configuration in `init` empties the time, level,
caller, stacktrace and name keys, so only the message and the fields appear. -/
def renderJSON : JSON → String
  | .str s => quoteJSON s
  | .int n => toString n
  | .bool b => if b then "true" else "false"
  | .obj kvs => "\x7b" ++ renderKVs kvs ++ "\x7d"

/-- Comma-separated `"key":value` pairs of an object body. -/
def renderKVs : List (String × JSON) → String
  | [] => ""
  | [(k, v)] => quoteJSON k ++ ":" ++ renderJSON v
  | (k, v) :: rest =>
    quoteJSON k ++ ":" ++ renderJSON v ++ "," ++ renderKVs rest

end

/-- Go `func (s Structured) JSON() string` (via `MarshalJSON`/`JSONBuffer`):
the entry `(Entry\x7bMessage: s.errorOrCause()\x7d, s.Fields())` encoded by the
JSON encoder, which writes the message under `"msg"` followed by the fields —
exactly `Structured.marshal` — rendered as a JSON object text. -/
def Structured.jsonString (s : Structured) : Option String :=
  match s.marshal with
  | some kvs => some (renderJSON (.obj kvs))
  | none => none

/-- The spec's `FindStructured` contract, stated independently of the code:
the first `Structured` reached from `e` by repeatedly following the unwrap
capability, or `none` when the chain ends without meeting one.  Used as the
specification side of the refinement claim about `AsStructured`. -/
def specFirstStructured : Option Err → Option Structured
  | some (.structured st) => some st
  | some (.foreignWrap _ inner) => specFirstStructured inner
  | some (.str _) => none
  | some (.foreignLeaf _) => none
  | none => none

/-- Whether a field value is one of the primitive kinds (string, int, bool). -/
def FieldValue.isPrim : FieldValue → Bool
  | .str _ => true
  | .int _ => true
  | .bool _ => true
  | _ => false

theorem asLoop_eq_spec (e : Option Err) :
    asLoop e = (specFirstStructured e).getD (.mk none none []) := by
  match e with
  | none => simp [asLoop, specFirstStructured]
  | some (.str t) => simp [asLoop, specFirstStructured]
  | some (.foreignLeaf t) => simp [asLoop, specFirstStructured]
  | some (.structured st) => simp [asLoop, specFirstStructured]
  | some (.foreignWrap t inner) =>
    simp [asLoop, specFirstStructured, asLoop_eq_spec inner]

theorem fieldsAdd_nil : fieldsAdd [] = some [] := by
  simp [fieldsAdd]

theorem fieldsAdd_cons (f : ZapField) (fs : List ZapField) :
    fieldsAdd (f :: fs)
      = match ZapField.addTo f, fieldsAdd fs with
        | some a, some b => some (a ++ b)
        | _, _ => none := by
  simp [fieldsAdd]

theorem fieldsAdd_append (l1 l2 : List ZapField) :
    fieldsAdd (l1 ++ l2)
      = match fieldsAdd l1, fieldsAdd l2 with
        | some a, some b => some (a ++ b)
        | _, _ => none := by
  induction l1 with
  | nil =>
    rcases hc : fieldsAdd l2 with _ | c <;> simp [fieldsAdd_nil, hc]
  | cons f fs ih =>
    rcases ha : ZapField.addTo f with _ | a <;>
      rcases hb : fieldsAdd fs with _ | b <;>
      rcases hc : fieldsAdd l2 with _ | c <;>
      simp [fieldsAdd_cons, ha, hb, hc, ih, List.append_assoc]

theorem fieldsFn_mk (causer err : Option Err) (fields : List ZapField) :
    (Structured.mk causer err fields).fieldsFn
      = fields ++
        (match causer with
         | some (.structured stre) => [ZapField.mk "cause" (.obj stre)]
         | _ => []) := by
  match causer with
  | none =>
    simp [Structured.fieldsFn, Structured.unwrap, Structured.causer,
      Structured.fields, Structured.err, AsStructured, asLoop, Option.isSome]
  | some (.structured stre) =>
    simp [Structured.fieldsFn, Structured.unwrap, Structured.causer,
      Structured.fields]
  | some (.str t) =>
    simp [Structured.fieldsFn, Structured.unwrap, Structured.causer,
      Structured.fields]
  | some (.foreignLeaf t) =>
    simp [Structured.fieldsFn, Structured.unwrap, Structured.causer,
      Structured.fields]
  | some (.foreignWrap t inner) =>
    simp [Structured.fieldsFn, Structured.unwrap, Structured.causer,
      Structured.fields]

theorem marshal_mk (causer err : Option Err) (fields : List ZapField) :
    (Structured.mk causer err fields).marshal
      = match Structured.errorOrCause (.mk causer err fields),
          fieldsAdd fields, causeAdd causer with
        | some m, some own, some cp => some (("msg", JSON.str m) :: (own ++ cp))
        | _, _, _ => none := by
  simp [Structured.marshal]

theorem marshal_matches_fieldsFn (s : Structured) :
    s.marshal
      = match s.errorOrCause, fieldsAdd s.fieldsFn with
        | some m, some rest => some (("msg", JSON.str m) :: rest)
        | _, _ => none := by
  obtain ⟨causer, err, fields⟩ := s
  rw [marshal_mk, fieldsFn_mk, fieldsAdd_append]
  match causer with
  | none =>
    rcases he : Structured.errorOrCause (.mk none err fields) with _ | m <;>
      rcases hf : fieldsAdd fields with _ | own <;>
      simp [causeAdd, fieldsAdd_nil]
  | some (.structured stre) =>
    rcases he : Structured.errorOrCause (.mk (some (.structured stre)) err fields)
        with _ | m <;>
      rcases hf : fieldsAdd fields with _ | own <;>
      rcases hm : Structured.marshal stre with _ | inner <;>
      simp [causeAdd, hm, fieldsAdd_cons, fieldsAdd_nil, ZapField.addTo]
  | some (.str t) =>
    rcases he : Structured.errorOrCause (.mk (some (.str t)) err fields) with _ | m <;>
      rcases hf : fieldsAdd fields with _ | own <;>
      simp [causeAdd, fieldsAdd_nil]
  | some (.foreignLeaf t) =>
    rcases he : Structured.errorOrCause (.mk (some (.foreignLeaf t)) err fields)
        with _ | m <;>
      rcases hf : fieldsAdd fields with _ | own <;>
      simp [causeAdd, fieldsAdd_nil]
  | some (.foreignWrap t inner) =>
    rcases he : Structured.errorOrCause (.mk (some (.foreignWrap t inner)) err fields)
        with _ | m <;>
      rcases hf : fieldsAdd fields with _ | own <;>
      simp [causeAdd, fieldsAdd_nil]

theorem errorOrCause_mk (causer err : Option Err) (fields : List ZapField) :
    Structured.errorOrCause (.mk causer err fields)
      = match err with
        | some e => Err.errorString e
        | none =>
          match causer with
          | some c => Err.errorString c
          | none => none := by
  simp [Structured.errorOrCause, Structured.err, Structured.causer]

theorem errString_msg_only (e : Err) (fields : List ZapField) :
    Structured.errString (.mk none (some e) fields) = Err.errorString e := by
  simp [Structured.errString]

theorem errString_msg_and_cause (c e : Err) (fields : List ZapField) :
    Structured.errString (.mk (some c) (some e) fields)
      = match Err.errorString e, Err.errorString c with
        | some a, some b => some (a ++ ": " ++ b)
        | _, _ => none := by
  simp [Structured.errString]

theorem errString_cause_only (c : Err) (fields : List ZapField) :
    Structured.errString (.mk (some c) none fields) = Err.errorString c := by
  simp [Structured.errString]

/-- Claim C1: the spec says that when the cause of `s` is present but is not
itself a `Structured`, `Fields()` searches the cause's unwrap chain for the
first `Structured` and appends a `"cause"` object field for it.  The code does
not: the branch for a non-nil cause returns immediately after the direct type
assertion, so its `AsStructured` fallback is unreachable.  At the input below
the cause is a foreign wrapper whose unwrap chain contains a `Structured`
(second conjunct: `AsStructured` finds it, so the search the spec describes
would succeed), yet `Fields()` appends no `"cause"` field at all (first
conjunct). -/
theorem c1_fields_skips_foreign_chain_search :
    (Structured.mk
        (some (.foreignWrap "io failed"
          (some (.structured (.mk none (some (.str "inner")) [])))))
        (some (.str "outer")) []).fieldsFn = []
    ∧ (AsStructured (some (.foreignWrap "io failed"
        (some (.structured (.mk none (some (.str "inner")) [])))))).2 = true := by
  constructor
  · rw [fieldsFn_mk]
    simp
  · have h1 : asLoop (some (.foreignWrap "io failed"
          (some (.structured (.mk none (some (.str "inner")) [])))))
        = Structured.mk none (some (.str "inner")) [] :=
      (asLoop.eq_2 "io failed" (some (.structured (.mk none (some (.str "inner")) []))))
        |>.trans (asLoop.eq_1 (.mk none (some (.str "inner")) []))
    simp only [AsStructured, h1]
    simp [Structured.causer, Structured.err]

/-- Claim C2: `Structure(nil, fields...)` and `Wrap(nil, message, fields...)`
return nil; for a non-nil cause both return a non-nil structured error whose
`causer` is that cause. -/
theorem c2_nil_propagation (message : String) (fields : List ZapField) (c : Err) :
    Structure none fields = none
    ∧ Wrap none message fields = none
    ∧ Structure (some c) fields = some (.structured (.mk (some c) none fields))
    ∧ Wrap (some c) message fields
        = some (.structured (.mk (some c) (some (.str message)) fields)) :=
  ⟨rfl, rfl, rfl, rfl⟩

/-- Claim C3: `Error()` returns the own message alone when the cause is
absent; own message, colon-space, then the cause's full recursive display
string when both are present; and the cause's display string unchanged when
the own message is absent.  Concretely,
`Wrap(Wrap(New("a"), "b"), "c").Error()` is `"c: b: a"`. -/
theorem c3_error_display (s : Structured) :
    (∀ e, s.err = some e → s.causer = none → s.errString = Err.errorString e)
    ∧ (∀ e c a b, s.err = some e → s.causer = some c →
        Err.errorString e = some a → Err.errorString c = some b →
        s.errString = some (a ++ ": " ++ b))
    ∧ (s.err = none → ∀ c, s.causer = some c → s.errString = Err.errorString c)
    ∧ (Wrap (Wrap (some (New "a" [])) "b" []) "c" []).bind Err.errorString
        = some "c: b: a" := by
  obtain ⟨causer, err, fields⟩ := s
  refine ⟨?_, ?_, ?_, ?_⟩
  · intro e he hc
    simp only [Structured.err] at he
    simp only [Structured.causer] at hc
    subst he hc
    rw [errString_msg_only]
  · intro e c a b he hc ha hb
    simp only [Structured.err] at he
    simp only [Structured.causer] at hc
    subst he hc
    rw [errString_msg_and_cause]
    simp [ha, hb]
  · intro he c hc
    simp only [Structured.err] at he
    simp only [Structured.causer] at hc
    subst he hc
    rw [errString_cause_only]
  · simp [Wrap, New, Err.errorString, errString_msg_and_cause,
      errString_msg_only]

/-- Witness for C3 at a concrete input: a structured error with message
`"m"` and plain cause `"x"` displays as `"m: x"`. -/
theorem c3_error_display_witness :
    (Structured.mk (some (.str "x")) (some (.str "m")) []).errString
      = some "m: x" := by
  have h := (c3_error_display (.mk (some (.str "x")) (some (.str "m")) [])).2.1
      (.str "m") (.str "x") "m" "x" rfl rfl
      (by simp [Err.errorString]) (by simp [Err.errorString])
  simpa using h

/-- Claim C4: for every non-nil cause, `Structure(cause, fields...)` returns
a structured error whose `Unwrap()` is the cause and whose `Error()` string
is the cause's `Error()` string unchanged. -/
theorem c4_structure_transparent (c : Err) (fields : List ZapField) :
    ∃ s, Structure (some c) fields = some (.structured s)
      ∧ s.unwrap = some c
      ∧ s.errString = Err.errorString c := by
  refine ⟨.mk (some c) none fields, rfl, rfl, ?_⟩
  rw [errString_cause_only]

/-- Claim C5: object serialization writes the key `"msg"` first, its value
being the own message when `s.err` is set and otherwise the bare `Error()`
string of the immediate cause, followed by every field of `Fields()` in
order (here: their encodings, in order). -/
theorem c5_marshal_headline_then_fields (s : Structured)
    (rest : List (String × JSON)) (hr : fieldsAdd s.fieldsFn = some rest) :
    (∀ e m, s.err = some e → Err.errorString e = some m →
        s.marshal = some (("msg", JSON.str m) :: rest))
    ∧ (∀ c m, s.err = none → s.causer = some c → Err.errorString c = some m →
        s.marshal = some (("msg", JSON.str m) :: rest)) := by
  have h := marshal_matches_fieldsFn s
  constructor
  · intro e m he hm
    have heoc : s.errorOrCause = some m := by
      simp [Structured.errorOrCause, he, hm]
    rw [h, heoc, hr]
  · intro c m he hc hm
    have heoc : s.errorOrCause = some m := by
      simp [Structured.errorOrCause, he, hc, hm]
    rw [h, heoc, hr]

/-- Witness for C5 at a concrete input: a structured error with message
`"m"` and one int field marshals to `"msg"` first, then the field. -/
theorem c5_marshal_headline_then_fields_witness :
    (Structured.mk none (some (.str "m")) [ZapField.mk "k" (.int 5)]).marshal
      = some [("msg", JSON.str "m"), ("k", JSON.int 5)] := by
  have h := (c5_marshal_headline_then_fields
      (.mk none (some (.str "m")) [ZapField.mk "k" (.int 5)])
      [("k", JSON.int 5)]
      (by simp [fieldsFn_mk, fieldsAdd_cons, fieldsAdd_nil, ZapField.addTo])).1
      (.str "m") "m" rfl (by simp [Err.errorString])
  simpa using h

theorem fieldsAdd_prim (fs : List ZapField)
    (h : ∀ f ∈ fs, FieldValue.isPrim f.val = true) :
    ∃ l, fieldsAdd fs = some l ∧ l.map Prod.fst = fs.map ZapField.key := by
  induction fs with
  | nil => exact ⟨[], fieldsAdd_nil, rfl⟩
  | cons f fs ih =>
    obtain ⟨l, hl, hk⟩ := ih (fun g hg => h g (List.mem_cons_of_mem _ hg))
    have hf := h f (List.mem_cons_self _ _)
    obtain ⟨k, v⟩ := f
    cases v with
    | str t =>
      refine ⟨(k, JSON.str t) :: l, ?_, ?_⟩
      · rw [fieldsAdd_cons]
        simp [ZapField.addTo, hl]
      · simp [ZapField.key, hk]
    | int n =>
      refine ⟨(k, JSON.int n) :: l, ?_, ?_⟩
      · rw [fieldsAdd_cons]
        simp [ZapField.addTo, hl]
      · simp [ZapField.key, hk]
    | bool b =>
      refine ⟨(k, JSON.bool b) :: l, ?_, ?_⟩
      · rw [fieldsAdd_cons]
        simp [ZapField.addTo, hl]
      · simp [ZapField.key, hk]
    | obj st => simp [FieldValue.isPrim, ZapField.val] at hf
    | skip => simp [FieldValue.isPrim, ZapField.val] at hf
    | errVal e => simp [FieldValue.isPrim, ZapField.val] at hf

/-- Claim C6: `JSON()` yields exactly `"msg"` first, then the context-field
keys in insertion order, then optionally a `"cause"` key holding a nested
object, and no other keys; concretely
`New("m", field("code",1234), field("addr","x")).JSON()` is
`\x7b"msg":"m","code":1234,"addr":"x"\x7d`, and a double wrap nests the inner
level under `"cause"` rather than merging its keys. -/
theorem c6_json_shape :
    ((match New "m" [ZapField.mk "code" (.int 1234), ZapField.mk "addr" (.str "x")] with
        | .structured s => s.jsonString
        | _ => none)
      = some "\x7b\"msg\":\"m\",\"code\":1234,\"addr\":\"x\"\x7d")
    ∧ (∀ (s : Structured) (kvs : List (String × JSON)),
        (∀ f ∈ s.fields, FieldValue.isPrim f.val = true) →
        s.marshal = some kvs →
        (kvs.map Prod.fst
            = "msg" :: s.fields.map ZapField.key
              ++ (match s.causer with
                  | some (.structured _) => ["cause"]
                  | _ => []))
        ∧ (∀ stre, s.causer = some (.structured stre) →
            ∃ inner, stre.marshal = some inner
              ∧ ("cause", JSON.obj inner) ∈ kvs))
    ∧ ((match Wrap (Wrap (some (.str "inner")) "mid" [ZapField.mk "f" (.str "1")])
            "outer" [ZapField.mk "g" (.str "2")] with
        | some (.structured s) => s.jsonString
        | _ => none)
      = some "\x7b\"msg\":\"outer\",\"g\":\"2\",\"cause\":\x7b\"msg\":\"mid\",\"f\":\"1\"\x7d\x7d") := by
  refine ⟨?_, ?_, ?_⟩
  · simp only [New, Structured.jsonString, marshal_mk, errorOrCause_mk,
      Err.errorString, fieldsAdd_cons, fieldsAdd_nil, ZapField.addTo, causeAdd,
      renderJSON, renderKVs, quoteJSON]
    decide
  · intro s kvs hprim hm
    obtain ⟨causer, err, fields⟩ := s
    rw [marshal_mk] at hm
    obtain ⟨own, hown, hkeys⟩ :=
      fieldsAdd_prim fields (by simpa [Structured.fields] using hprim)
    rcases he : Structured.errorOrCause (.mk causer err fields) with _ | m
    · rw [he] at hm
      simp at hm
    rw [he, hown] at hm
    cases causer with
    | none =>
      simp only [causeAdd] at hm
      obtain rfl : ("msg", JSON.str m) :: (own ++ []) = kvs := by
        simpa using hm
      refine ⟨?_, ?_⟩
      · simp [Structured.fields, Structured.causer, hkeys]
      · intro stre hst
        simp [Structured.causer] at hst
    | some c =>
      cases c with
      | structured stre =>
        rcases hcm : Structured.marshal stre with _ | inner
        · simp only [causeAdd, hcm] at hm
          exact Option.noConfusion hm
        · simp only [causeAdd, hcm] at hm
          obtain rfl :
              ("msg", JSON.str m) :: (own ++ [("cause", JSON.obj inner)]) = kvs := by
            simpa using hm
          refine ⟨?_, ?_⟩
          · simp [Structured.fields, Structured.causer, hkeys]
          · intro stre2 hst
            simp only [Structured.causer, Option.some.injEq] at hst
            cases hst
            exact ⟨inner, hcm, by simp⟩
      | str t =>
        simp only [causeAdd] at hm
        obtain rfl : ("msg", JSON.str m) :: (own ++ []) = kvs := by
          simpa using hm
        refine ⟨?_, ?_⟩
        · simp [Structured.fields, Structured.causer, hkeys]
        · intro stre hst
          simp [Structured.causer] at hst
      | foreignLeaf t =>
        simp only [causeAdd] at hm
        obtain rfl : ("msg", JSON.str m) :: (own ++ []) = kvs := by
          simpa using hm
        refine ⟨?_, ?_⟩
        · simp [Structured.fields, Structured.causer, hkeys]
        · intro stre hst
          simp [Structured.causer] at hst
      | foreignWrap t inner =>
        simp only [causeAdd] at hm
        obtain rfl : ("msg", JSON.str m) :: (own ++ []) = kvs := by
          simpa using hm
        refine ⟨?_, ?_⟩
        · simp [Structured.fields, Structured.causer, hkeys]
        · intro stre hst
          simp [Structured.causer] at hst
  · simp only [Wrap, Structured.jsonString, marshal_mk, errorOrCause_mk,
      Err.errorString, fieldsAdd_cons, fieldsAdd_nil, ZapField.addTo, causeAdd,
      renderJSON, renderKVs, quoteJSON]
    decide

/-- Witness for C6 at a concrete input: for a structured error with message
`"m"`, one primitive field keyed `"k"` and no cause, the marshalled keys are
`"msg"` then `"k"`, with no `"cause"` key. -/
theorem c6_json_shape_witness :
    ([("msg", JSON.str "m"), ("k", JSON.bool true)].map Prod.fst
        = "msg" :: [ZapField.mk "k" (FieldValue.bool true)].map ZapField.key
          ++ (match (Structured.mk none (some (.str "m"))
                [ZapField.mk "k" (FieldValue.bool true)]).causer with
              | some (.structured _) => ["cause"]
              | _ => [])) := by
  refine (c6_json_shape.2.1
      (.mk none (some (.str "m")) [ZapField.mk "k" (FieldValue.bool true)])
      [("msg", JSON.str "m"), ("k", JSON.bool true)]
      ?_ ?_).1
  · intro f hf
    simp only [Structured.fields, List.mem_singleton] at hf
    subst hf
    simp [ZapField.val, FieldValue.isPrim]
  · simp [marshal_mk, errorOrCause_mk, Err.errorString, fieldsAdd_cons,
      fieldsAdd_nil, ZapField.addTo, causeAdd]

/-- Claim C8: a `Structured` with neither an own message nor a cause is the
empty sentinel: the found flag of `AsStructured` is false for it, both when
it is inspected directly and when it is reached through an unwrap chain. -/
theorem c8_empty_sentinel_not_found (fields : List ZapField) (t : String) :
    (AsStructured (some (.structured (.mk none none fields)))).2 = false
    ∧ (AsStructured (some (.foreignWrap t
        (some (.structured (.mk none none fields)))))).2 = false := by
  constructor <;>
    simp [AsStructured, asLoop, Structured.causer, Structured.err]

/-- Claim C7: on a finite acyclic chain (inherent to the inductive model),
`AsStructured` returns the first `Structured` along the unwrap chain with the
found flag true when one exists (the first one being well formed, per the
spec's invariant on `StructuredError`), and the flag is false when no
`Structured` exists anywhere in the chain; `IsStructured` equals that flag. -/
theorem c7_find_first_structured (e : Option Err)
    (h : ∀ s, specFirstStructured e = some s →
        (s.causer.isSome || s.err.isSome) = true) :
    (∀ s, specFirstStructured e = some s → AsStructured e = (s, true))
    ∧ (specFirstStructured e = none → (AsStructured e).2 = false)
    ∧ IsStructured e = (AsStructured e).2 := by
  refine ⟨?_, ?_, rfl⟩
  · intro s hs
    have hl : asLoop e = s := by
      rw [asLoop_eq_spec, hs]
      rfl
    simp [AsStructured, hl, h s hs]
  · intro hs
    have hl : asLoop e = .mk none none [] := by
      rw [asLoop_eq_spec, hs]
      rfl
    simp [AsStructured, hl, Structured.causer, Structured.err]

/-- Witness for C7 at a concrete input: a foreign wrapper around a structured
error; `AsStructured` returns that structured error and the found flag. -/
theorem c7_find_first_structured_witness :
    AsStructured (some (.foreignWrap "w"
        (some (.structured (.mk none (some (.str "x")) [])))))
      = (.mk none (some (.str "x")) [], true) := by
  refine (c7_find_first_structured _ ?_).1 _ ?_
  · intro s hs
    simp only [specFirstStructured, Option.some.injEq] at hs
    subst hs
    simp [Structured.causer, Structured.err]
  · simp [specFirstStructured]

/-- Claim C9: `Field(e)` is the no-op `zap.Skip()` field for nil (its key is
empty and it contributes nothing when added to an encoder); an object field
under key `"error"` wrapping the found `Structured` when `AsStructured` finds
one in the chain; otherwise the plain error field wrapping the text of
`e.Error()`. -/
theorem c9_log_field (e : Err) :
    (Field none = ZapField.mk "" .skip
      ∧ ZapField.addTo (Field none) = some [])
    ∧ (∀ s, AsStructured (some e) = (s, true) →
        Field (some e) = ZapField.mk "error" (.obj s))
    ∧ (∀ s, AsStructured (some e) = (s, false) →
        Field (some e) = ZapField.mk "error" (.errVal e)
        ∧ ∀ m, Err.errorString e = some m →
            ZapField.addTo (Field (some e)) = some [("error", JSON.str m)]) := by
  refine ⟨⟨rfl, by simp [Field, ZapField.addTo]⟩, ?_, ?_⟩
  · intro s hs
    simp [Field, hs]
  · intro s hs
    have hf : Field (some e) = ZapField.mk "error" (.errVal e) := by
      simp [Field, hs]
    refine ⟨hf, fun m hm => ?_⟩
    rw [hf]
    simp [ZapField.addTo, hm]

/-- Witness for C9 at a concrete input: a plain foreign error with no
structured ancestor becomes the `"error"` text field with its message. -/
theorem c9_log_field_witness :
    ZapField.addTo (Field (some (.str "boom")))
      = some [("error", JSON.str "boom")] := by
  refine ((c9_log_field (.str "boom")).2.2 (.mk none none []) ?_).2 "boom" ?_
  · simp [AsStructured, asLoop, Structured.causer, Structured.err]
  · simp [Err.errorString]

/-- Claim C10: `Cause()` and `Unwrap()` return the identical cause value. -/
theorem c10_cause_eq_unwrap (s : Structured) : s.cause = s.unwrap :=
  rfl

end Erreur
